import Mathlib

/-!
# Verification of the `gj` event-loop concurrency runtime

Shallow embedding of the promise engine and async I/O surface of the `gj`
library (`src/lib.rs`, `src/io.rs`), together with proofs of the spec's
claims about it.

The crate declares `mod private;` and `mod handle_table;` whose sources are
not part of the snapshot; where a definition from those modules is needed it
is modelled from the spec and marked `Modelled from the spec:` in its doc
comment.  Everything else is translated directly from the Rust source.
-/

namespace Gj

/-- Error kinds of the runtime (spec section 7).  The Rust code uses
`std::io::Error` values carrying a message string; we keep the kinds the
spec distinguishes as constructors and fold generic OS errors into `io`. -/
inductive GjError : Type
  | prematureEof
  | timedOut
  | brokenPromise
  | io (msg : String)
deriving DecidableEq, Repr

/-- The message string the Rust code attaches to each error. -/
def GjError.message : GjError → String
  | .prematureEof => "Premature EOF"
  | .timedOut => "operation timed out"
  | .brokenPromise => "broken promise"
  | .io m => m

/-! ## Event loop (`src/lib.rs`, `EventLoop`)

Event nodes live in the loop's handle table (`events`); `head` is the
sentinel, `tail` the last armed node, `depth_first_insertion_point` where
depth-first arming inserts.  `handle_table.rs` is not in the snapshot; per
the spec (section 4.1) a handle table is a map from small-integer handles to
slots, so we model the table as a total function `Nat → EventNode`.  The
callback stored in a node (`Event` in the missing `private.rs`) is
modelled from the spec: firing it advances some promise node toward
readiness, i.e. it transforms the loop state; we abstract it as a value of
a type `Ev` together with an interpretation `fire : Ev → LoopState → LoopState`. -/

/-- A handle into a handle table (a small integer naming a slot). -/
abbrev Handle := Nat

/-- `private::EventNode`: optional one-shot callback plus doubly-linked
`prev`/`next` handle links. -/
structure EventNode (Ev : Type) where
  event : Option Ev
  next : Option Handle
  prev : Option Handle

/-- State of `EventLoop` relevant to scheduling: the event-node table and
the three distinguished handles. -/
structure LoopState (Ev : Type) where
  events : Handle → EventNode Ev
  head : Handle
  tail : Handle
  depth_first_insertion_point : Handle

/-- Update one slot of the event-node table. -/
def LoopState.setNode (s : LoopState Ev) (h : Handle) (f : EventNode Ev → EventNode Ev) :
    LoopState Ev :=
  { s with events := fun h2 => if h2 = h then f (s.events h) else s.events h2 }

/-- `EventLoop::turn` (src/lib.rs lines 254-284), parametrised by the
interpretation of stored callbacks.  Returns `none` where the Rust code
would panic (the `.expect("No event to fire?")` on a node armed without a
callback), otherwise the updated state and the returned bool. -/
def turn (fire : Ev → LoopState Ev → LoopState Ev) (s : LoopState Ev) :
    Option (LoopState Ev × Bool) :=
  match (s.events s.head).next with
  | none => some (s, false)
  | some event_handle =>
    let s1 := { s with depth_first_insertion_point := event_handle }
    match (s1.events event_handle).event with
    | none => none
    | some ev =>
      let s2 := s1.setNode event_handle (fun n => { n with event := none })
      let s3 := fire ev s2
      let maybe_next := (s3.events event_handle).next
      let s4 := s3.setNode s3.head (fun n => { n with next := maybe_next })
      let s5 := match maybe_next with
        | some e => s4.setNode e (fun n => { n with prev := some s4.head })
        | none => s4
      let s6 := s5.setNode event_handle (fun n => { n with next := none })
      let s7 := s6.setNode event_handle (fun n => { n with prev := none })
      let s8 := if s7.tail = event_handle then { s7 with tail := s7.head } else s7
      some ({ s8 with depth_first_insertion_point := s8.head }, true)

/-- `EventLoop::arm_depth_first` (src/lib.rs lines 214-231). -/
def arm_depth_first (s : LoopState Ev) (event_handle : Handle) : LoopState Ev :=
  let ip := s.depth_first_insertion_point
  let insertion_node_next := (s.events ip).next
  let s1 := match insertion_node_next with
    | some next_handle =>
      (s.setNode next_handle (fun n => { n with prev := some event_handle })).setNode
        event_handle (fun n => { n with next := some next_handle })
    | none => { s with tail := event_handle }
  let s2 := s1.setNode event_handle (fun n => { n with prev := some ip })
  let s3 := s2.setNode ip (fun n => { n with next := some event_handle })
  { s3 with depth_first_insertion_point := event_handle }

/-- `EventLoop::arm_breadth_first` (src/lib.rs lines 233-238). -/
def arm_breadth_first (s : LoopState Ev) (event_handle : Handle) : LoopState Ev :=
  let s1 := s.setNode s.tail (fun n => { n with next := some event_handle })
  let s2 := s1.setNode event_handle (fun n => { n with prev := some s.tail })
  { s2 with tail := event_handle }

/-! ## `EventLoop::top_level` (src/lib.rs lines 182-212)

The thread-local `EVENT_LOOP` slot is modelled by an explicit
`Option (LoopState Ev)` value threaded through; the `assert!` failing
(nested installation) is modelled by returning `none`.  The user entrypoint
`main` runs with the fresh loop installed, so we model it as a function of
that loop; the `WaitScope` token is a phantom and carries no data. -/

/-- The fresh loop `top_level` builds: an event table whose only live slot
is the head sentinel (pushed first, so handle 0), with no event and no
links, and `tail` and the depth-first insertion point both at `head`. -/
def freshEventLoop (Ev : Type) : LoopState Ev :=
  { events := fun _ => { event := none, next := none, prev := none }
    head := 0
    tail := 0
    depth_first_insertion_point := 0 }

/-- `EventLoop::top_level`: panic (`none`) if a loop is already installed;
otherwise install a fresh loop, run `main` under it, clear the slot and
return `main`'s result.  The returned pair is (final thread-local slot,
entrypoint result). -/
def top_level (slot : Option (LoopState Ev))
    (main : LoopState Ev → LoopState Ev × Except GjError Unit) :
    Option (Option (LoopState Ev) × Except GjError Unit) :=
  match slot with
  | some _ => none
  | none =>
    let r := main (freshEventLoop Ev)
    some (none, r.2)

/-! ## `Promise::wait` (src/lib.rs lines 119-138)

`wait` creates a `fired` cell, attaches a `BoolEvent` (which sets the cell
when fired — `BoolEvent` lives in the missing `private.rs`; modelled from
the spec: "a terminal event that sets it on fire", spec 4.2) to the
promise's node via `on_ready`, then loops `turn()`, blocking on the event
port's `wait()` whenever `turn()` returns false, until the cell is set;
finally it returns `node.get()`.

We model the world seen by the loop abstractly: a state `σ` paired with the
`fired` cell; `on_ready`, `turn` and the port's `wait` are parameters (the
promise node graph lives in the missing `private.rs`).  Since the Rust loop
need not terminate, the recursion is fuel-indexed; `none` means the fuel ran
out, never a behaviour of the code. -/

/-- World state during `Promise::wait`: the `fired` cell plus the rest of
the loop/reactor state. -/
structure WaitState (σ : Type) where
  fired : Bool
  inner : σ

/-- The `while !fired { if !turn() { port.wait() } }` loop of
`Promise::wait`, fuel-indexed. -/
def waitLoop (turnF : WaitState σ → WaitState σ × Bool)
    (portWait : WaitState σ → WaitState σ) :
    Nat → WaitState σ → Option (WaitState σ)
  | 0, _ => none
  | fuel + 1, s =>
    if s.fired then some s
    else
      let r := turnF s
      if r.2 then waitLoop turnF portWait fuel r.1
      else waitLoop turnF portWait fuel (portWait r.1)

/-- `Promise::wait`: attach the terminal event to the node (`on_ready`),
drive the loop, then return `node.get()` of the final state. -/
def promiseWait (on_ready : WaitState σ → WaitState σ)
    (turnF : WaitState σ → WaitState σ × Bool)
    (portWait : WaitState σ → WaitState σ)
    (get : WaitState σ → Except GjError α)
    (fuel : Nat) (s0 : WaitState σ) : Option (Except GjError α) :=
  (waitLoop turnF portWait fuel (on_ready s0)).map get

/-! ## Promise combinators (src/lib.rs lines 59-97)

`then_else` builds `Chain(Transform(node, f, g))`; `map_else` builds
`Transform(node, f, g)`; `then` and `map` pass the error-propagating
handler `|e| Err(e)`.  `Transform` and `Chain` live in the missing
`private.rs`; their resolution rules are modelled from the spec (4.3).
A promise is modelled denotationally by its eventual resolution, an
`Except GjError` value. -/

/-- Modelled from the spec: resolution of `promise_node::Transform`
(`private.rs`, not in the snapshot) — "applies a function on resolution:
compute f(val) or g(err)". -/
def transformRes (inner : Except GjError α)
    (f : α → Except GjError β) (g : GjError → Except GjError β) : Except GjError β :=
  match inner with
  | .ok v => f v
  | .error e => g e

/-- Modelled from the spec: resolution of `promise_node::Chain`
(`private.rs`, not in the snapshot) — "flattens a promise-of-promise". -/
def chainRes (p : Except GjError (Except GjError α)) : Except GjError α :=
  match p with
  | .ok q => q
  | .error e => .error e

/-- `Promise::then_else` (src/lib.rs 59-68): `Chain(Transform(node, f, g))`. -/
def thenElse (p : Except GjError α) (f : α → Except GjError (Except GjError β))
    (g : GjError → Except GjError (Except GjError β)) : Except GjError β :=
  chainRes (transformRes p f g)

/-- `Promise::then` (src/lib.rs 71-77): `then_else` with handler `|e| Err(e)`. -/
def promiseThen (p : Except GjError α)
    (f : α → Except GjError (Except GjError β)) : Except GjError β :=
  thenElse p f (fun e => .error e)

/-- `Promise::map_else` (src/lib.rs 80-88): `Transform(node, f, g)`. -/
def mapElse (p : Except GjError α) (f : α → Except GjError β)
    (g : GjError → Except GjError β) : Except GjError β :=
  transformRes p f g

/-- `Promise::map` (src/lib.rs 91-97): `map_else` with handler `|e| Err(e)`. -/
def promiseMap (p : Except GjError α) (f : α → Except GjError β) : Except GjError β :=
  mapElse p f (fun e => .error e)

/-! ## Async byte streams (src/io.rs)

`try_read_internal` / `write_internal` drive a nonblocking fd.  The OS
calls `mio::TryRead::try_read` / `TryWrite::try_write` are external
nondeterminism; we model each successive call's outcome by the head of a
script list: `Ok(Some(n))` (with the OS guarantee that at most the length
of the passed slice is transferred, hence the `min` clamp), `Ok(None)`
(would-block) or `Err(e)`.  The buffer content is irrelevant to the claims,
so a buffer is represented by its length.

A would-block suspends on the observer's readable/writable side
(`when_becomes_readable` / `when_becomes_writable`) and retries once
fulfilled; in the denotational model the suspension is recorded in a ghost
counter `suspends`, and the retry continues with the rest of the script.
`none` means the script ran out, never a behaviour of the code. -/

/-- Outcome of one OS-level `try_read` / `try_write` call:
`Ok(Some(n))`, `Ok(None)` (would block) or `Err(e)`. -/
inductive IoStep : Type
  | ok (n : Nat)
  | wouldBlock
  | ioError (msg : String)
deriving DecidableEq, Repr

/-- Result of a resolved read: bytes read, plus ghost fields recording how
many times the operation suspended on readable and whether it returned
through the EOF branch. -/
structure ReadOutcome where
  n : Nat
  suspends : Nat
  sawEof : Bool
deriving DecidableEq, Repr

/-- `try_read_internal` (src/io.rs lines 238-270): loop while
`already_read < min_bytes`; `Ok(Some(0))` is EOF and resolves with the
bytes so far; `Ok(Some(n))` advances; `Ok(None)` suspends on readable and
retries; `Err` rejects.  On loop exit resolve with `already_read`. -/
def try_read_internal (bufLen min_bytes : Nat) :
    List IoStep → Nat → Nat → Option (Except GjError ReadOutcome)
  | script, already_read, suspends =>
    if already_read < min_bytes then
      match script with
      | [] => none
      | step :: rest =>
        match step with
        | .ok n =>
          match min n (bufLen - already_read) with
          | 0 => some (.ok ⟨already_read, suspends, true⟩)
          | m + 1 => try_read_internal bufLen min_bytes rest (already_read + (m + 1)) suspends
        | .wouldBlock => try_read_internal bufLen min_bytes rest already_read (suspends + 1)
        | .ioError msg => some (.error (.io msg))
    else some (.ok ⟨already_read, suspends, false⟩)

/-- `AsyncRead::try_read` for a stream (src/io.rs 302-309):
`try_read_internal(self, buf, 0, min_bytes)`. -/
def tryRead (bufLen min_bytes : Nat) (script : List IoStep) :
    Option (Except GjError ReadOutcome) :=
  try_read_internal bufLen min_bytes script 0 0

/-- `AsyncRead::read` (src/io.rs 41-51): `try_read(...).map(|(s,buf,n)|
if n < min_bytes { Err("Premature EOF") } else { Ok((s,buf,n)) })`;
`map` propagates a rejection of `try_read` unchanged. -/
def streamRead (bufLen min_bytes : Nat) (script : List IoStep) :
    Option (Except GjError ReadOutcome) :=
  match tryRead bufLen min_bytes script with
  | some (.ok r) =>
    some (if r.n < min_bytes then .error .prematureEof else .ok r)
  | other => other

/-- `write_internal` (src/io.rs 272-299): loop while
`already_written < buf.len()`; `Ok(Some(n))` advances the cursor;
`Ok(None)` suspends on writable and retries from the current cursor;
`Err` rejects.  On loop exit resolve.  The result records the cumulative
bytes written plus a ghost suspension counter. -/
def write_internal (bufLen : Nat) :
    List IoStep → Nat → Nat → Option (Except GjError (Nat × Nat))
  | script, already_written, suspends =>
    if already_written < bufLen then
      match script with
      | [] => none
      | step :: rest =>
        match step with
        | .ok n =>
          write_internal bufLen rest (already_written + min n (bufLen - already_written)) suspends
        | .wouldBlock => write_internal bufLen rest already_written (suspends + 1)
        | .ioError msg => some (.error (.io msg))
    else some (.ok (already_written, suspends))

/-- `AsyncWrite::write` for a stream (src/io.rs 311-317):
`write_internal(self, buf, 0)`. -/
def streamWrite (bufLen : Nat) (script : List IoStep) :
    Option (Except GjError (Nat × Nat)) :=
  write_internal bufLen script 0 0

/-! ## Timer (src/io.rs lines 403-439)

`after_delay_ms(d)` makes a promise/fulfiller hub, schedules a reactor
timeout at `d` ms whose firing fulfills the hub with `()`, and wraps the
hub node in `promise_node::Wrapper` with a `TimeoutDropper` that clears the
reservation when dropped.  `timeout_after_ms(d, p)` is
`p.exclusive_join(after_delay_ms(d).map(|()| Err("operation timed out")))`.

`Wrapper`, `ExclusiveJoin` and the hub live in the missing `private.rs`;
their behaviour is modelled from the spec (4.3): a promise is modelled by
the time (ms) at which it resolves together with its result, a wrapped
promise additionally carries the action its drop performs on the timer
state, and the exclusive join resolves with the first side to fire and
drops the other. -/

/-- A promise together with the instant (ms) at which it resolves. -/
structure TimedPromise (α : Type) where
  time : Nat
  result : Except GjError α

/-- Reactor timer state: whether the (single, modelled) timeout reservation
has been cleared by `clear_timeout`. -/
structure TimerState where
  cleared : Bool
deriving DecidableEq, Repr

/-- Modelled from the spec: `promise_node::Wrapper` (`private.rs`, not in
the snapshot) — wraps a node with a scoped resource released when the
wrapper is dropped.  `onDrop` is the drop action on the timer state. -/
structure WrappedPromise (α : Type) where
  p : TimedPromise α
  onDrop : TimerState → TimerState

/-- `Timer::after_delay_ms` (src/io.rs 406-417): a hub promise fulfilled
with `()` at `delay` ms, wrapped so that dropping it runs `TimeoutDropper`,
which calls `clear_timeout` on the reservation (src/io.rs 430-436). -/
def after_delay_ms (delay : Nat) : WrappedPromise Unit :=
  { p := { time := delay, result := .ok () }
    onDrop := fun ts => { ts with cleared := true } }

/-- `map` applied to a wrapped promise: transforms the result at the
resolution instant (`Transform` fires as an immediate depth-first
continuation); the wrapper's drop action travels with the chain. -/
def WrappedPromise.map (w : WrappedPromise α) (f : α → Except GjError β) :
    WrappedPromise β :=
  { p := { time := w.p.time, result := promiseMap w.p.result f }
    onDrop := w.onDrop }

/-- Modelled from the spec: `promise_node::ExclusiveJoin` (`private.rs`,
not in the snapshot) — "resolves with whichever side resolves first; the
other side is cancelled (dropped)".  When the plain side wins, the wrapped
side is dropped and its drop action runs on the timer state. -/
def exclusive_join (a : TimedPromise α) (b : WrappedPromise α) (ts : TimerState) :
    TimedPromise α × TimerState :=
  if a.time ≤ b.p.time then (a, b.onDrop ts) else (b.p, ts)

/-- `Timer::timeout_after_ms` (src/io.rs 419-423):
`promise.exclusive_join(self.after_delay_ms(delay).map(|()| Err("operation timed out")))`. -/
def timeout_after_ms (delay : Nat) (promise : TimedPromise α) (ts : TimerState) :
    TimedPromise α × TimerState :=
  exclusive_join promise
    ((after_delay_ms delay).map (fun _ => .error .timedOut)) ts

/-! ## `NetworkAddress::new` (src/io.rs lines 99-104)

`to_socket_addrs()` may fail (`try!` propagates) or yield a sequence of
addresses; the code takes the first, and on an empty sequence executes
`unimplemented!()`, which panics.  Addresses are modelled as opaque `Nat`s. -/

/-- Result of `NetworkAddress::new`: an address, a propagated error, or a
process abort (panic). -/
inductive NaResult : Type
  | ok (addr : Nat)
  | err (msg : String)
  | panicked
deriving DecidableEq, Repr

/-- `NetworkAddress::new`: `match try!(address.to_socket_addrs()).next()
{ Some(addr) => Ok(..), None => unimplemented!() }`. -/
def networkAddress_new (resolved : Except String (List Nat)) : NaResult :=
  match resolved with
  | .error m => .err m
  | .ok addrs =>
    match addrs with
    | addr :: _ => .ok addr
    | [] => .panicked

/-! ## Listener registration and `Drop for ConnectionReceiver` (src/io.rs)

For the frame claim about dropping a `ConnectionReceiver` we model the
parts of the loop's I/O state it could touch: the reactor's observer
handle table (as the list of live handles plus the fresh-handle counter —
`handle_table.rs` is missing; modelled from the spec, section 4.1), the set
of tokens registered with the poller, and the set of open sockets. -/

/-- I/O-side state of the event loop: live observer handles, the observer
table's next fresh handle, poller-registered tokens, open socket fds. -/
structure IoState where
  observers : List Handle
  nextHandle : Handle
  registered : List Handle
  openSockets : List Nat
deriving DecidableEq, Repr

/-- `FdObserver::new` (src/io.rs 326-333): push a fresh observer into the
event port's observer table and return its handle. -/
def FdObserver_new (s : IoState) : Handle × IoState :=
  (s.nextHandle,
   { s with observers := s.nextHandle :: s.observers, nextHandle := s.nextHandle + 1 })

/-- The `ConnectionReceiver` value: the listening socket and its observer
handle (src/io.rs 150-153). -/
structure ConnectionReceiver where
  listenerFd : Nat
  handle : Handle
deriving DecidableEq, Repr

/-- `NetworkAddress::listen` (src/io.rs 106-120): create and bind the
listener socket `fd`, make a fresh observer, register the listener with
the poller under token = handle, and return the receiver. -/
def listen (s : IoState) (fd : Nat) : IoState × ConnectionReceiver :=
  let s1 := { s with openSockets := fd :: s.openSockets }
  let hr := FdObserver_new s1
  let s2 := { hr.2 with registered := hr.1 :: hr.2.registered }
  (s2, { listenerFd := fd, handle := hr.1 })

/-- `Drop for ConnectionReceiver` (src/io.rs 155-159): the `drop` body is
empty (only the comment `// deregister the token`); the `listener` field's
own drop then closes the socket.  Nothing else is touched. -/
def connectionReceiver_drop (r : ConnectionReceiver) (s : IoState) : IoState :=
  { s with openSockets := s.openSockets.erase r.listenerFd }

/-- The state in which `turn` fires the selected event: the depth-first
insertion point has been moved onto the event's handle and the callback has
been taken out of the node (src/lib.rs 260-263). -/
def turnPreFire (s : LoopState Ev) (e : Handle) : LoopState Ev :=
  ({ s with depth_first_insertion_point := e }).setNode e (fun n => { n with event := none })

/-- The unlink-and-reset tail of `turn` (src/lib.rs 266-283), applied to
the post-fire state `sf`: relink the head sentinel past the fired node,
fix the new successor's back link, clear the fired node's links, pull the
tail back to head if the fired node was the tail, and reset the depth-first
insertion point to head. -/
def turnFinish (sf : LoopState Ev) (e : Handle) : LoopState Ev :=
  let maybe_next := (sf.events e).next
  let s4 := sf.setNode sf.head (fun n => { n with next := maybe_next })
  let s5 := match maybe_next with
    | some m => s4.setNode m (fun n => { n with prev := some s4.head })
    | none => s4
  let s6 := s5.setNode e (fun n => { n with next := none })
  let s7 := s6.setNode e (fun n => { n with prev := none })
  let s8 := if s7.tail = e then { s7 with tail := s7.head } else s7
  { s8 with depth_first_insertion_point := s8.head }

/-- A tiny concrete loop: the head sentinel at handle 0 followed by one
armed event at handle 1 (also the tail). -/
def witnessLoop : LoopState Unit :=
  { events := fun h =>
      if h = 0 then { event := none, next := some 1, prev := none }
      else if h = 1 then { event := some (), next := none, prev := some 0 }
      else { event := none, next := none, prev := none }
    head := 0
    tail := 1
    depth_first_insertion_point := 0 }

/-- A concrete one-turn world used to exercise `Promise::wait`: the single
armed event is the terminal event, so the first `turn` fires it and sets
the `fired` cell. -/
def oneTurn : WaitState Nat → WaitState Nat × Bool :=
  fun s => (⟨true, s.inner⟩, true)

/-- `node.get()` for the concrete one-turn world: the stored value. -/
def oneTurnGet : WaitState Nat → Except GjError Nat :=
  fun s => .ok s.inner

/-! ## Lemmas about table updates -/

theorem setNode_events_self (s : LoopState Ev) (h : Handle) (f : EventNode Ev → EventNode Ev) :
    (s.setNode h f).events h = f (s.events h) := by
  simp [LoopState.setNode]

theorem setNode_events_ne (s : LoopState Ev) (h : Handle) (f : EventNode Ev → EventNode Ev)
    (h2 : Handle) (hne : h2 ≠ h) : (s.setNode h f).events h2 = s.events h2 := by
  simp [LoopState.setNode, hne]

theorem setNode_head (s : LoopState Ev) (h : Handle) (f : EventNode Ev → EventNode Ev) :
    (s.setNode h f).head = s.head := rfl

theorem setNode_tail (s : LoopState Ev) (h : Handle) (f : EventNode Ev → EventNode Ev) :
    (s.setNode h f).tail = s.tail := rfl

theorem setNode_dfip (s : LoopState Ev) (h : Handle) (f : EventNode Ev → EventNode Ev) :
    (s.setNode h f).depth_first_insertion_point = s.depth_first_insertion_point := rfl

/-! ## Claim theorems -/

/-- C6: for a promise rejected with `e`, `then` and `map` reject with the
same error `e` without invoking `f` (the result does not depend on `f`),
while `then_else` and `map_else` resolve according to `g e`: `map_else`
yields `g e` itself and `then_else` yields `g e` flattened through
`Chain`, so `g` may recover with a value or a further promise. -/
theorem error_propagation_spec {α β : Type} (e : GjError)
    (f f2 : α → Except GjError (Except GjError β))
    (m m2 : α → Except GjError β)
    (g : GjError → Except GjError (Except GjError β))
    (g2 : GjError → Except GjError β) :
    promiseThen (.error e) f = .error e ∧
    promiseMap (.error e) m = .error e ∧
    promiseThen (.error e) f = promiseThen (.error e) f2 ∧
    promiseMap (.error e) m = promiseMap (.error e) m2 ∧
    thenElse (.error e) f g = chainRes (g e) ∧
    mapElse (.error e) m g2 = g2 e :=
  ⟨rfl, rfl, rfl, rfl, rfl, rfl⟩

/-- C8: on a hostport whose resolution yields an empty address list,
`NetworkAddress::new` executes `unimplemented!()` and panics, instead of
returning the address-resolution-failure `Err` the spec requires. -/
theorem networkAddress_new_empty_panics :
    networkAddress_new (.ok []) = NaResult.panicked := rfl

/-- C9: `EventLoop::top_level` asserts (terminates) when an event loop is
already installed in the thread-local slot; otherwise it installs a fresh
loop, runs the entrypoint with it, clears the slot on exit and returns the
entrypoint's result unchanged. -/
theorem top_level_spec {Ev : Type} (slot : Option (LoopState Ev))
    (main : LoopState Ev → LoopState Ev × Except GjError Unit) (l : LoopState Ev) :
    (slot = some l → top_level slot main = none) ∧
    (slot = none → top_level slot main = some (none, (main (freshEventLoop Ev)).2)) := by
  constructor
  · intro h; subst h; rfl
  · intro h; subst h; rfl

/-- Witness for C9: with a loop already installed `top_level` hits the
assertion; with an empty slot it returns the entrypoint's result and a
cleared slot. -/
theorem top_level_spec_witness :
    top_level (some (freshEventLoop Unit)) (fun s => (s, .ok ())) = none ∧
    top_level (none : Option (LoopState Unit)) (fun s => (s, .ok ())) = some (none, .ok ()) :=
  ⟨(top_level_spec (some (freshEventLoop Unit)) (fun s => (s, .ok ()))
      (freshEventLoop Unit)).1 rfl,
   (top_level_spec none (fun s => (s, .ok ())) (freshEventLoop Unit)).2 rfl⟩

/-- C10: dropping a `ConnectionReceiver` leaves the observer table, its
fresh-handle counter and the poller registrations unchanged, and only
closes the listener socket; in particular, after `listen` the receiver's
observer entry and registered token both survive the drop. -/
theorem connectionReceiver_drop_frame (s : IoState) (fd : Nat) (r : ConnectionReceiver) :
    (connectionReceiver_drop r s).observers = s.observers ∧
    (connectionReceiver_drop r s).registered = s.registered ∧
    (connectionReceiver_drop r s).nextHandle = s.nextHandle ∧
    (connectionReceiver_drop r s).openSockets = s.openSockets.erase r.listenerFd ∧
    (connectionReceiver_drop (listen s fd).2 (listen s fd).1).observers =
      (listen s fd).1.observers ∧
    (listen s fd).2.handle ∈ (connectionReceiver_drop (listen s fd).2 (listen s fd).1).observers ∧
    (listen s fd).2.handle ∈ (connectionReceiver_drop (listen s fd).2 (listen s fd).1).registered := by
  refine ⟨rfl, rfl, rfl, rfl, rfl, ?_, ?_⟩
  · simp [listen, FdObserver_new, connectionReceiver_drop]
  · simp [listen, FdObserver_new, connectionReceiver_drop]

/-- Resolving `try_read_internal` successfully yields `min_bytes` bytes
unless the EOF branch was taken. -/
theorem try_read_internal_ok (bufLen min_bytes : Nat) :
    ∀ (script : List IoStep) (a susp : Nat) (r : ReadOutcome),
      try_read_internal bufLen min_bytes script a susp = some (.ok r) →
      min_bytes ≤ r.n ∨ (r.n < min_bytes ∧ r.sawEof = true) := by
  intro script
  induction script with
  | nil =>
    intro a susp r h
    by_cases ha : a < min_bytes
    · simp [try_read_internal, ha] at h
    · simp [try_read_internal, ha] at h
      left
      rw [← h]
      exact Nat.le_of_not_lt ha
  | cons step rest ih =>
    intro a susp r h
    by_cases ha : a < min_bytes
    · cases step with
      | ok n =>
        rw [try_read_internal, if_pos ha] at h
        cases hm : min n (bufLen - a) with
        | zero =>
          rw [hm] at h
          simp at h
          right
          rw [← h]
          exact ⟨ha, rfl⟩
        | succ m =>
          rw [hm] at h
          exact ih _ _ _ h
      | wouldBlock =>
        rw [try_read_internal, if_pos ha] at h
        exact ih _ _ _ h
      | ioError msg =>
        rw [try_read_internal, if_pos ha] at h
        simp at h
    · simp [try_read_internal, ha] at h
      left
      rw [← h]
      exact Nat.le_of_not_lt ha

/-- A rejection of `try_read_internal` always comes from the underlying OS
read call, so it carries the `io` kind. -/
theorem try_read_internal_error_io (bufLen min_bytes : Nat) :
    ∀ (script : List IoStep) (a susp : Nat) (e : GjError),
      try_read_internal bufLen min_bytes script a susp = some (.error e) →
      ∃ msg, e = .io msg := by
  intro script
  induction script with
  | nil =>
    intro a susp e h
    by_cases ha : a < min_bytes <;> simp [try_read_internal, ha] at h
  | cons step rest ih =>
    intro a susp e h
    by_cases ha : a < min_bytes
    · cases step with
      | ok n =>
        rw [try_read_internal, if_pos ha] at h
        cases hm : min n (bufLen - a) with
        | zero => rw [hm] at h; simp at h
        | succ m => rw [hm] at h; exact ih _ _ _ h
      | wouldBlock =>
        rw [try_read_internal, if_pos ha] at h
        exact ih _ _ _ h
      | ioError msg =>
        rw [try_read_internal, if_pos ha] at h
        simp at h
        exact ⟨msg, h.symm⟩
    · simp [try_read_internal, ha] at h

/-- C3: a successful resolution of `try_read` has `n ≥ min_bytes` or fell
short only because the EOF branch was taken (a short read at EOF resolves
successfully, never errors); an OS read of 0 bytes while short resolves at
once through the EOF branch; a would-block result suspends (ghost counter)
and retries with the same cursor instead of resolving. -/
theorem try_read_spec (bufLen min_bytes a susp : Nat) (script rest : List IoStep) :
    (∀ r : ReadOutcome, tryRead bufLen min_bytes script = some (.ok r) →
        min_bytes ≤ r.n ∨ (r.n < min_bytes ∧ r.sawEof = true)) ∧
    (a < min_bytes →
        try_read_internal bufLen min_bytes (IoStep.ok 0 :: rest) a susp =
          some (.ok ⟨a, susp, true⟩)) ∧
    (a < min_bytes →
        try_read_internal bufLen min_bytes (IoStep.wouldBlock :: rest) a susp =
          try_read_internal bufLen min_bytes rest a (susp + 1)) := by
  refine ⟨fun r h => try_read_internal_ok bufLen min_bytes script 0 0 r h, ?_, ?_⟩
  · intro ha
    simp [try_read_internal, ha]
  · intro ha
    simp [try_read_internal, ha]

/-- Witness for C3: a full read meets the bound; a 0-byte OS read at
cursor 2 resolves via EOF; a would-block retries with the cursor kept. -/
theorem try_read_spec_witness :
    ((5:Nat) ≤ 5 ∨ ((5:Nat) < 5 ∧ false = true)) ∧
    try_read_internal 10 5 [IoStep.ok 0] 2 0 = some (.ok ⟨2, 0, true⟩) ∧
    try_read_internal 10 5 [IoStep.wouldBlock, IoStep.ok 9] 2 1 =
      try_read_internal 10 5 [IoStep.ok 9] 2 2 :=
  ⟨(try_read_spec 10 5 2 0 [IoStep.ok 5] []).1 ⟨5, 0, false⟩ rfl,
   (try_read_spec 10 5 2 0 [IoStep.ok 5] []).2.1 (by decide),
   (try_read_spec 10 5 2 1 [IoStep.ok 5] [IoStep.ok 9]).2.2 (by decide)⟩

/-- C4: `read` rejects with premature EOF exactly when `try_read` resolved
with fewer than `min_bytes` bytes; a sufficient `try_read` result and a
`try_read` rejection both pass through unchanged. -/
theorem read_premature_eof_spec (bufLen min_bytes : Nat) (script : List IoStep) :
    (∀ r : ReadOutcome, tryRead bufLen min_bytes script = some (.ok r) → min_bytes ≤ r.n →
        streamRead bufLen min_bytes script = some (.ok r)) ∧
    (∀ e, tryRead bufLen min_bytes script = some (.error e) →
        streamRead bufLen min_bytes script = some (.error e)) ∧
    (streamRead bufLen min_bytes script = some (.error .prematureEof) ↔
      ∃ r : ReadOutcome, tryRead bufLen min_bytes script = some (.ok r) ∧ r.n < min_bytes) := by
  refine ⟨?_, ?_, ?_, ?_⟩
  · intro r h hge
    simp [streamRead, h, Nat.not_lt.mpr hge]
  · intro e h
    simp [streamRead, h]
  · intro h
    cases htr : tryRead bufLen min_bytes script with
    | none => rw [streamRead, htr] at h; exact absurd h (by simp)
    | some x =>
      cases x with
      | ok r =>
        by_cases hlt : r.n < min_bytes
        · exact ⟨r, rfl, hlt⟩
        · rw [streamRead, htr] at h
          simp [hlt] at h
      | error e =>
        rw [streamRead, htr] at h
        obtain ⟨msg, hmsg⟩ := try_read_internal_error_io bufLen min_bytes script 0 0 e htr
        simp [hmsg] at h
  · rintro ⟨r, htr, hlt⟩
    simp [streamRead, htr, hlt]

/-- Witness for C4: a sufficient read passes through; an OS error passes
through; and the premature-EOF iff holds at a short-at-EOF script. -/
theorem read_premature_eof_spec_witness :
    streamRead 10 5 [IoStep.ok 7] = some (.ok ⟨7, 0, false⟩) ∧
    streamRead 10 5 [IoStep.ioError "boom"] = some (.error (.io "boom")) ∧
    (streamRead 10 5 [IoStep.ok 3, IoStep.ok 0] = some (.error .prematureEof) ↔
      ∃ r : ReadOutcome, tryRead 10 5 [IoStep.ok 3, IoStep.ok 0] = some (.ok r) ∧
        r.n < 5) :=
  ⟨(read_premature_eof_spec 10 5 [IoStep.ok 7]).1 ⟨7, 0, false⟩ rfl (by decide),
   (read_premature_eof_spec 10 5 [IoStep.ioError "boom"]).2.1 (.io "boom") rfl,
   (read_premature_eof_spec 10 5 [IoStep.ok 3, IoStep.ok 0]).2.2⟩

/-- Resolving `write_internal` successfully means the cumulative count
reached exactly the buffer length. -/
theorem write_internal_ok (bufLen : Nat) :
    ∀ (script : List IoStep) (a susp w s2 : Nat),
      a ≤ bufLen →
      write_internal bufLen script a susp = some (.ok (w, s2)) →
      w = bufLen := by
  intro script
  induction script with
  | nil =>
    intro a susp w s2 hle h
    by_cases ha : a < bufLen
    · simp [write_internal, ha] at h
    · simp [write_internal, ha] at h
      omega
  | cons step rest ih =>
    intro a susp w s2 hle h
    by_cases ha : a < bufLen
    · cases step with
      | ok n =>
        rw [write_internal, if_pos ha] at h
        have hmin : min n (bufLen - a) ≤ bufLen - a := Nat.min_le_right _ _
        exact ih _ _ _ _ (by omega) h
      | wouldBlock =>
        rw [write_internal, if_pos ha] at h
        exact ih _ _ _ _ hle h
      | ioError msg =>
        rw [write_internal, if_pos ha] at h
        simp at h
    · simp [write_internal, ha] at h
      omega

/-- C5: `write` resolves only once the cumulative bytes written equal the
buffer length; a partial OS write advances the cursor by the amount
written and continues; a would-block suspends (ghost counter) and retries
from the current cursor. -/
theorem write_spec (bufLen a susp n : Nat) (script rest : List IoStep) :
    (∀ w s2, streamWrite bufLen script = some (.ok (w, s2)) → w = bufLen) ∧
    (a < bufLen →
        write_internal bufLen (IoStep.ok n :: rest) a susp =
          write_internal bufLen rest (a + min n (bufLen - a)) susp) ∧
    (a < bufLen →
        write_internal bufLen (IoStep.wouldBlock :: rest) a susp =
          write_internal bufLen rest a (susp + 1)) := by
  refine ⟨fun w s2 h => write_internal_ok bufLen script 0 0 w s2 (Nat.zero_le _) h, ?_, ?_⟩
  · intro ha
    rw [write_internal, if_pos ha]
  · intro ha
    rw [write_internal, if_pos ha]

/-- Witness for C5: a two-chunk write with one would-block in between
resolves with exactly the buffer length written, and the partial-write and
would-block stepping equations hold at concrete cursors. -/
theorem write_spec_witness :
    ((5:Nat) = 5) ∧
    write_internal 5 [IoStep.ok 2, IoStep.ok 9] 3 0 =
      write_internal 5 [IoStep.ok 9] (3 + min 2 (5 - 3)) 0 ∧
    write_internal 5 [IoStep.wouldBlock, IoStep.ok 9] 3 0 =
      write_internal 5 [IoStep.ok 9] 3 1 :=
  ⟨(write_spec 5 3 0 2 [IoStep.ok 3, IoStep.wouldBlock, IoStep.ok 2] [IoStep.ok 9]).1
      5 1 rfl,
   (write_spec 5 3 0 2 [IoStep.ok 3] [IoStep.ok 9]).2.1 (by decide),
   (write_spec 5 3 0 2 [IoStep.ok 3] [IoStep.ok 9]).2.2 (by decide)⟩

/-- C7: `timeout_after_ms(d, p)` is the exclusive join of `p` with the
delay promise `after_delay_ms(d)` mapped to the operation-timed-out
rejection; when `p` resolves strictly first the timer side is dropped and
its wrapper clears the reservation; when the delay fires strictly first
the result is the rejection whose error carries the message
"operation timed out". -/
theorem timeout_after_ms_spec {α : Type} (delay : Nat) (promise : TimedPromise α)
    (ts : TimerState) :
    timeout_after_ms delay promise ts =
      exclusive_join promise
        ((after_delay_ms delay).map (fun _ => .error .timedOut)) ts ∧
    (promise.time < delay →
        timeout_after_ms delay promise ts = (promise, { cleared := true })) ∧
    (delay < promise.time →
        (timeout_after_ms delay promise ts).1 =
          { time := delay, result := .error .timedOut } ∧
        (timeout_after_ms delay promise ts).2 = ts) ∧
    GjError.timedOut.message = "operation timed out" := by
  refine ⟨rfl, ?_, ?_, rfl⟩
  · intro hlt
    simp [timeout_after_ms, exclusive_join, after_delay_ms, WrappedPromise.map,
          Nat.le_of_lt hlt]
  · intro hlt
    constructor <;>
      simp [timeout_after_ms, exclusive_join, after_delay_ms, WrappedPromise.map,
            Nat.not_le.mpr hlt, promiseMap, mapElse, transformRes]

/-- Witness for C7: a promise resolving at 3 ms beats a 10 ms timeout and
clears the reservation; a promise resolving at 30 ms loses to it and the
result is the timed-out rejection. -/
theorem timeout_after_ms_spec_witness :
    timeout_after_ms 10 ({ time := 3, result := .ok 7 } : TimedPromise Nat)
        { cleared := false } =
      ({ time := 3, result := .ok 7 }, { cleared := true }) ∧
    (timeout_after_ms 10 ({ time := 30, result := .ok 7 } : TimedPromise Nat)
        { cleared := false }).1 =
      { time := 10, result := .error .timedOut } :=
  ⟨(timeout_after_ms_spec 10 { time := 3, result := .ok 7 } { cleared := false }).2.1
      (by decide),
   ((timeout_after_ms_spec 10 { time := 30, result := .ok 7 } { cleared := false }).2.2.1
      (by decide)).1⟩

/-- `waitLoop` only returns a state in which the `fired` cell is set. -/
theorem waitLoop_fired {σ : Type} (turnF : WaitState σ → WaitState σ × Bool)
    (portWait : WaitState σ → WaitState σ) :
    ∀ (fuel : Nat) (s s2 : WaitState σ),
      waitLoop turnF portWait fuel s = some s2 → s2.fired = true := by
  intro fuel
  induction fuel with
  | zero => intro s s2 h; simp [waitLoop] at h
  | succ n ih =>
    intro s s2 h
    rw [waitLoop] at h
    by_cases hf : s.fired
    · rw [if_pos hf] at h
      cases h
      exact hf
    · rw [if_neg hf] at h
      by_cases ht : (turnF s).2
      · rw [if_pos ht] at h
        exact ih _ _ h
      · rw [if_neg ht] at h
        exact ih _ _ h

/-- C2: `Promise::wait` first attaches the terminal event (`on_ready`),
then drives the `turn` loop, calling the reactor port's `wait()` exactly
after each `turn()` that returned false; the loop exits only once the
`fired` cell is set, and the returned value is `node.get()` of the final
state. -/
theorem promise_wait_spec {σ α : Type} (on_ready : WaitState σ → WaitState σ)
    (turnF : WaitState σ → WaitState σ × Bool)
    (portWait : WaitState σ → WaitState σ)
    (get : WaitState σ → Except GjError α)
    (fuel : Nat) (s0 s : WaitState σ) :
    promiseWait on_ready turnF portWait get fuel s0 =
      (waitLoop turnF portWait fuel (on_ready s0)).map get ∧
    (s.fired = true → waitLoop turnF portWait (fuel + 1) s = some s) ∧
    (s.fired = false →
        waitLoop turnF portWait (fuel + 1) s =
          (if (turnF s).2 then waitLoop turnF portWait fuel (turnF s).1
           else waitLoop turnF portWait fuel (portWait (turnF s).1))) ∧
    (∀ r, promiseWait on_ready turnF portWait get fuel s0 = some r →
        ∃ s2, waitLoop turnF portWait fuel (on_ready s0) = some s2 ∧
          s2.fired = true ∧ r = get s2) := by
  refine ⟨rfl, ?_, ?_, ?_⟩
  · intro hf
    rw [waitLoop, if_pos hf]
  · intro hf
    rw [waitLoop, if_neg (by simp [hf])]
  · intro r h
    rw [promiseWait] at h
    cases hw : waitLoop turnF portWait fuel (on_ready s0) with
    | none => rw [hw] at h; simp at h
    | some s2 =>
      rw [hw] at h
      simp at h
      exact ⟨s2, rfl, waitLoop_fired turnF portWait fuel _ s2 hw, h.symm⟩

/-- Witness for C2: an instance where one `turn` fires the terminal event
(setting `fired`): the loop steps as specified and the result is the
node's value. -/
theorem promise_wait_spec_witness :
    waitLoop oneTurn id 1 ⟨true, 42⟩ = some ⟨true, 42⟩ ∧
    waitLoop oneTurn id 2 ⟨false, 42⟩ =
      (if (oneTurn ⟨false, 42⟩).2
       then waitLoop oneTurn id 1 (oneTurn ⟨false, 42⟩).1
       else waitLoop oneTurn id 1 (id (oneTurn ⟨false, 42⟩).1)) ∧
    (∃ s2, waitLoop oneTurn id 2 (id ⟨false, 42⟩) = some s2 ∧
        s2.fired = true ∧ (Except.ok 42 : Except GjError Nat) = oneTurnGet s2) :=
  ⟨(promise_wait_spec id oneTurn id oneTurnGet 0 ⟨false, 42⟩ ⟨true, 42⟩).2.1 rfl,
   (promise_wait_spec id oneTurn id oneTurnGet 1 ⟨false, 42⟩ ⟨false, 42⟩).2.2.1 rfl,
   (promise_wait_spec id oneTurn id oneTurnGet 2 ⟨false, 42⟩ ⟨false, 42⟩).2.2.2
      (Except.ok 42) rfl⟩


/-- `turn`'s armed branch: with an armed event `e` after the head sentinel
whose node holds callback `ev`, `turn` moves the depth-first insertion
point to `e`, takes the callback out (`turnPreFire`), fires it, and applies
the unlink / reset steps (`turnFinish`) to the post-fire state. -/
theorem turn_eq_some {Ev : Type} (fire : Ev → LoopState Ev → LoopState Ev)
    (s : LoopState Ev) (e : Handle) (ev : Ev)
    (h1 : (s.events s.head).next = some e) (h2 : (s.events e).event = some ev) :
    turn fire s = some (turnFinish (fire ev (turnPreFire s e)) e, true) := by
  unfold turn
  rw [h1]
  show (match (s.events e).event with
    | none => none
    | some ev =>
      let s2 := turnPreFire s e
      let s3 := fire ev s2
      let maybe_next := (s3.events e).next
      let s4 := s3.setNode s3.head (fun n => { n with next := maybe_next })
      let s5 := match maybe_next with
        | some m => s4.setNode m (fun n => { n with prev := some s4.head })
        | none => s4
      let s6 := s5.setNode e (fun n => { n with next := none })
      let s7 := s6.setNode e (fun n => { n with prev := none })
      let s8 := if s7.tail = e then { s7 with tail := s7.head } else s7
      some ({ s8 with depth_first_insertion_point := s8.head }, true) : Option (LoopState Ev × Bool)) = _
  rw [h2]
  rfl

/-- Structural facts about the unlink / reset steps of `turn`: the fired
node's links are cleared, the head sentinel is relinked past it, the new
successor's back link points at head, the tail is pulled back to head
exactly when the fired node was the tail, the depth-first insertion point
is reset to head, and every other slot is untouched. -/
theorem turnFinish_spec {Ev : Type} (sf : LoopState Ev) (e : Handle) :
    (turnFinish sf e).head = sf.head ∧
    (turnFinish sf e).depth_first_insertion_point = sf.head ∧
    (turnFinish sf e).tail = (if sf.tail = e then sf.head else sf.tail) ∧
    ((turnFinish sf e).events e).next = none ∧
    ((turnFinish sf e).events e).prev = none ∧
    (sf.head ≠ e → ((turnFinish sf e).events sf.head).next = (sf.events e).next) ∧
    (∀ m, (sf.events e).next = some m → m ≠ e → m ≠ sf.head →
        (turnFinish sf e).events m = { sf.events m with prev := some sf.head }) ∧
    (∀ h2, h2 ≠ e → h2 ≠ sf.head →
        (∀ m, (sf.events e).next = some m → h2 ≠ m) →
        (turnFinish sf e).events h2 = sf.events h2) := by
  unfold turnFinish
  cases hmn : (sf.events e).next with
  | none =>
    refine ⟨?_, ?_, ?_, ?_, ?_, ?_, ?_, ?_⟩
    · by_cases ht : sf.tail = e <;> simp [LoopState.setNode, ht]
    · by_cases ht : sf.tail = e <;> simp [LoopState.setNode, ht]
    · by_cases ht : sf.tail = e <;> simp [LoopState.setNode, ht]
    · by_cases ht : sf.tail = e <;> simp [LoopState.setNode, ht]
    · by_cases ht : sf.tail = e <;> simp [LoopState.setNode, ht]
    · intro hne
      by_cases ht : sf.tail = e <;>
        simp [LoopState.setNode, ht, hne, Ne.symm hne, hmn]
    · intro m hm
      simp [hmn] at hm
    · intro h2 hne hnh _
      by_cases ht : sf.tail = e <;>
        simp [LoopState.setNode, ht, hne, hnh]
  | some m =>
    refine ⟨?_, ?_, ?_, ?_, ?_, ?_, ?_, ?_⟩
    · by_cases ht : sf.tail = e <;> simp [LoopState.setNode, ht]
    · by_cases ht : sf.tail = e <;> simp [LoopState.setNode, ht]
    · by_cases ht : sf.tail = e <;> simp [LoopState.setNode, ht]
    · by_cases ht : sf.tail = e <;> simp [LoopState.setNode, ht]
    · by_cases ht : sf.tail = e <;> simp [LoopState.setNode, ht]
    · intro hne
      have he : e ≠ sf.head := Ne.symm hne
      by_cases hmh : sf.head = m
      · by_cases hme : m = e
        · exact absurd (hmh.trans hme) hne
        · by_cases ht : sf.tail = e <;>
            simp [LoopState.setNode, ht, hne, he, hmh, hme, hmn]
      · by_cases hme : m = e <;> by_cases ht : sf.tail = e <;>
          simp [LoopState.setNode, ht, hne, he, hmh, hme, hmn]
    · intro m2 hm2 hm2e hm2h
      injection hm2 with hm2
      subst hm2
      by_cases ht : sf.tail = e <;>
        simp [LoopState.setNode, ht, hm2e, hm2h, Ne.symm hm2h]
    · intro h2 hne hnh hnm
      have hm2 := hnm m rfl
      by_cases ht : sf.tail = e <;>
        simp [LoopState.setNode, ht, hne, hnh, hm2]

/-- C1: `turn()` returns false, leaving the state unchanged, when the list
after the head sentinel is empty; otherwise it fires exactly the first
armed event `e = head.next` — with the depth-first insertion point set to
`e` and the callback taken out of the node before firing — and then
unlinks `e` (head relinked past it, successor's back link fixed), clears
`e`'s prev/next, sets the tail back to head if the fired event was the
tail, resets the depth-first insertion point to head, and returns true. -/
theorem turn_spec {Ev : Type} (fire : Ev → LoopState Ev → LoopState Ev) (s : LoopState Ev) :
    ((s.events s.head).next = none → turn fire s = some (s, false)) ∧
    (∀ (e : Handle) (ev : Ev) (sf : LoopState Ev),
      (s.events s.head).next = some e →
      (s.events e).event = some ev →
      sf = fire ev (turnPreFire s e) →
      turn fire s = some (turnFinish sf e, true) ∧
      (turnFinish sf e).head = sf.head ∧
      (turnFinish sf e).depth_first_insertion_point = sf.head ∧
      (turnFinish sf e).tail = (if sf.tail = e then sf.head else sf.tail) ∧
      ((turnFinish sf e).events e).next = none ∧
      ((turnFinish sf e).events e).prev = none ∧
      (sf.head ≠ e → ((turnFinish sf e).events sf.head).next = (sf.events e).next) ∧
      (∀ m, (sf.events e).next = some m → m ≠ e → m ≠ sf.head →
          (turnFinish sf e).events m = { sf.events m with prev := some sf.head }) ∧
      (∀ h2, h2 ≠ e → h2 ≠ sf.head →
          (∀ m, (sf.events e).next = some m → h2 ≠ m) →
          (turnFinish sf e).events h2 = sf.events h2)) := by
  constructor
  · intro h1
    unfold turn
    rw [h1]
  · intro e ev sf h1 h2 hsf
    subst hsf
    exact ⟨turn_eq_some fire s e ev h1 h2, turnFinish_spec _ e⟩

/-- Witness for C1: on a loop with one armed event after the sentinel,
`turn` fires it and returns true with the unlinked state. -/
theorem turn_spec_witness :
    turn (fun (_ : Unit) (s : LoopState Unit) => s) witnessLoop =
      some (turnFinish (turnPreFire witnessLoop 1) 1, true) :=
  ((turn_spec (fun _ s => s) witnessLoop).2 1 () (turnPreFire witnessLoop 1) rfl rfl rfl).1
end Gj
